import Mathlib

/-!
Verification development for the `documark` document-conversion tool.

The definitions below are a shallow embedding of the Python sources under
`src/documark/`:
  * `core/patterns.py`   — `OutputPattern` (placeholder validation and
    substitution) and `parse_output_location`,
  * `core/metadata.py`   — `ConversionMetadata` (`needs_conversion`,
    `save_metadata`, `clean_metadata`),
  * `core/converter.py`  — `DocumentConverter.convert` and the response
    handling of `_convert_with_llm`,
  * `core/async_converter.py` — `convert_file_async`,
    `convert_recursive_async` and its semaphore discipline.

Modelling conventions:
  * Python strings are `List Char` (`Str` below); `str.replace` is
    `pyReplace` (leftmost, non-overlapping, replacement text not rescanned),
    `re.findall` on the fixed regex of `_validate_pattern` is
    `findPlaceholders`.
  * `pathlib.Path` is `PyPath`: a list of components plus an absolute flag,
    following POSIX `PurePath` normalisation (empty and `.` segments are
    dropped when parsing a string).
  * Filesystem facts (existence, directory-ness, mtimes, file contents,
    stored cache records) are fields of a `World` record; file mtimes are
    rationals (`st_mtime` is a finite IEEE double, and every finite double
    is a rational, with the same ordering).
  * The external pieces (processor rendering plus the LLM call, the stdlib
    JSON parser) are oracle parameters of the embedded functions; the code
    around them is translated faithfully.
-/

/-- Python strings, modelled as lists of characters. -/
abbrev Str := List Char

namespace Documark

/-! ## String primitives (Python `str` operations used by the sources) -/

/-- Python's `\w` character class, restricted to ASCII (the recognized
placeholder names are all ASCII words). -/
def isWordChar (c : Char) : Bool :=
  c.isAlphanum || c = '_'

/-- Python `s.replace(needle, repl)` for a non-empty `needle`: scan left to
right, replace each non-overlapping occurrence, never rescanning the
replacement text.  (An empty `needle` never occurs in the sources: the
needles are always `{key}` for one of the ten fixed keys.) -/
def pyReplace (needle repl : Str) : Str → Str
  | [] => []
  | c :: rest =>
    if h : needle ≠ [] ∧ needle <+: (c :: rest) then
      repl ++ pyReplace needle repl (List.drop needle.length (c :: rest))
    else
      c :: pyReplace needle repl rest
  termination_by s => s.length
  decreasing_by
    all_goals first
      | (have h1 : 1 ≤ needle.length := List.length_pos.mpr h.1
         simp only [List.length_drop, List.length_cons]
         omega)
      | (simp only [List.length_cons]; omega)
      | omega

/-- `re.findall(r"\{(\w+)\}", s)`: all captured groups of the non-overlapping
left-to-right matches.  A match at a `'{'` is a maximal non-empty run of word
characters followed immediately by `'}'`; on failure the scan advances one
character. -/
def findPlaceholders : Str → List Str
  | [] => []
  | c :: rest =>
    if c = '{' then
      let w := rest.takeWhile isWordChar
      if w ≠ [] ∧ List.drop w.length rest ≠ [] ∧
          (List.drop w.length rest).headI = '}' then
        w :: findPlaceholders (List.tail (List.drop w.length rest))
      else
        findPlaceholders rest
    else
      findPlaceholders rest
  termination_by s => s.length
  decreasing_by
    · simp only [List.length_tail, List.length_drop, List.length_cons]
      omega
    · simp [List.length_cons]
    · simp [List.length_cons]

/-- Python `str.strip()`: drop leading and trailing whitespace. -/
def pyStrip (s : Str) : Str :=
  ((s.dropWhile Char.isWhitespace).reverse.dropWhile Char.isWhitespace).reverse

/-- Substring test, Python's `needle in hay`. -/
def containsSub (hay needle : Str) : Bool :=
  hay.tails.any (fun t => decide (needle <+: t))

/-- Split a character list at a separator character (used to parse a path
string at `'/'`). -/
def splitOnChar (sep : Char) : Str → List Str
  | [] => [[]]
  | c :: rest =>
    match splitOnChar sep rest with
    | [] => [[]]
    | cur :: rs => if c = sep then [] :: cur :: rs else (c :: cur) :: rs

/-- Join path components with `'/'` separators. -/
def joinSlash : List Str → Str
  | [] => []
  | [p] => p
  | p :: ps => p ++ '/' :: joinSlash ps

/-! ## `pathlib.Path` model (POSIX pure paths) -/

/-- A POSIX `pathlib.Path`: normalised components plus an absolute flag.
`PurePosixPath` drops empty and `"."` segments when parsing, so the
components of a parsed path never contain `'/'` and are never `""` or
`"."`. -/
structure PyPath where
  parts : List Str
  absolute : Bool
deriving DecidableEq, Repr

namespace PyPath

/-- `Path(s)` for a string `s`: absolute iff it starts with `'/'`; split on
`'/'` and drop empty and `"."` segments (POSIX `PurePath` normalisation;
`".."` segments are kept). -/
def parse (s : Str) : PyPath :=
  { parts := (splitOnChar '/' s).filter (fun p => p ≠ [] ∧ p ≠ ['.'])
    absolute := s.headI = '/' ∧ s ≠ [] }

/-- `str(path)`: `"/"`-joined components, with `"."` for an empty relative
path and `"/"` for the root. -/
def render (p : PyPath) : Str :=
  if p.absolute then '/' :: joinSlash p.parts
  else if p.parts = [] then ['.']
  else joinSlash p.parts

/-- `path.name`: the final component (`""` for `/` and `.`). -/
def name (p : PyPath) : Str :=
  (p.parts.getLast?).getD []

/-- `path.parent`: drop the final component; the root and `.` are their own
parents. -/
def parent (p : PyPath) : PyPath :=
  { parts := p.parts.dropLast, absolute := p.absolute }

/-- CPython `PurePath.suffix`: `name[i:]` where `i` is the index of the last
dot, provided `0 < i < len(name) - 1`; otherwise `""`. -/
def suffixOfName (nm : Str) : Str :=
  match ((List.range nm.length).filter
      (fun i => nm.getD i ' ' = '.')).getLast? with
  | none => []
  | some i => if 0 < i ∧ i < nm.length - 1 then List.drop i nm else []

/-- `path.suffix`. -/
def suffix (p : PyPath) : Str :=
  suffixOfName p.name

/-- `path.stem`: the name with its suffix removed. -/
def stem (p : PyPath) : Str :=
  List.take (p.name.length - p.suffix.length) p.name

/-- `base / rel` for a relative `rel`: append the components. -/
def join (base rel : PyPath) : PyPath :=
  { parts := base.parts ++ rel.parts, absolute := base.absolute }

/-- `base / name` for a single (non-empty) name string. -/
def joinName (base : PyPath) (nm : Str) : PyPath :=
  { parts := base.parts ++ (if nm = [] then [] else [nm])
    absolute := base.absolute }

/-- `source.relative_to(base)`: defined when both share the anchor and
`base`'s components are an initial segment of `source`'s; otherwise Python
raises `ValueError` (modelled as `none`). -/
def relativeTo (source base : PyPath) : Option PyPath :=
  if source.absolute = base.absolute ∧ base.parts <+: source.parts then
    some { parts := List.drop base.parts.length source.parts
           absolute := false }
  else
    none

/-- `path.absolute()`: prepend the working directory when relative. -/
def absolutize (cwd p : PyPath) : PyPath :=
  if p.absolute then p else join cwd p

end PyPath

/-! ## `core/patterns.py` — `OutputPattern` and `parse_output_location` -/

/-- The keys of `OutputPattern.VARIABLES`, in Python dict insertion order
(the order in which `apply` performs its replacements). -/
def variableKeys : List Str :=
  ["filename".toList, "name".toList, "ext".toList, "extension".toList,
   "dir".toList, "dirname".toList, "path".toList, "date".toList,
   "time".toList, "timestamp".toList]

/-- `OutputPattern._validate_pattern`: collect the `\{(\w+)\}` matches and
raise `ValueError` when any is not a recognized variable.  `.ok` means the
constructor returns normally. -/
def validatePattern (tmpl : Str) : Except Str Unit :=
  let vars := findPlaceholders tmpl
  let invalid := vars.filter (fun v => ! variableKeys.contains v)
  if invalid ≠ [] then .error "Invalid variables in pattern".toList
  else .ok ()

/-- The wall clock as `apply` consumes it: the three `strftime` renderings
of `datetime.now()` (`%Y-%m-%d`, `%H-%M-%S`, `%Y-%m-%d_%H-%M-%S`) plus the
`isoformat()` string used by `save_metadata`. -/
structure NowStrings where
  date : Str
  clock : Str
  stamp : Str
  iso : Str
deriving DecidableEq, Repr

/-- `'{' ++ key ++ '}'`, the needle `apply` passes to `str.replace`. -/
def braced (key : Str) : Str :=
  '{' :: key ++ ['}']

/-- The substitution table of `OutputPattern.apply`, in dict order:
source stem (twice), suffix with leading dots stripped (twice), parent
directory name (twice), `str(rel_path.parent)`, and the three time
strings. -/
def buildValues (source : PyPath) (relPath : PyPath) (now : NowStrings) :
    List (Str × Str) :=
  [("filename".toList, source.stem),
   ("name".toList, source.stem),
   ("ext".toList, source.suffix.dropWhile (· = '.')),
   ("extension".toList, source.suffix.dropWhile (· = '.')),
   ("dir".toList, source.parent.name),
   ("dirname".toList, source.parent.name),
   ("path".toList, relPath.parent.render),
   ("date".toList, now.date),
   ("time".toList, now.clock),
   ("timestamp".toList, now.stamp)]

/-- The string-substitution phase of `OutputPattern.apply`: fold
`output_path.replace("{key}", value)` over the table. -/
def substitute (tmpl : Str) (values : List (Str × Str)) : Str :=
  values.foldl (fun acc kv => pyReplace (braced kv.1) kv.2 acc) tmpl

/-- `OutputPattern.apply(source_path, base_dir)`: compute `rel_path` (with
the `ValueError` fallback to the source itself), substitute all ten
variables, parse the result as a path, and for a relative result join it
under `base_dir` when the template mentions `{path}` and under the source's
parent directory otherwise. -/
def applyPattern (tmpl : Str) (source : PyPath) (base : PyPath)
    (now : NowStrings) : PyPath :=
  let relPath := (PyPath.relativeTo source base).getD source
  let expanded := substitute tmpl (buildValues source relPath now)
  let result := PyPath.parse expanded
  if result.absolute then result
  else if containsSub tmpl ("{path}".toList) then PyPath.join base result
  else PyPath.join source.parent result

/-- The part of `parse_output_location` after its first `return`: the
pattern branch and the default behavior. -/
def parseOutputRest (source : PyPath) (output : Option PyPath)
    (pattern : Option Str) (isBatch : Bool) (isDir : PyPath → Bool)
    (now : NowStrings) (cwd : PyPath) : Except Str PyPath :=
  -- If pattern is given, use it
  match pattern with
  | some tmpl =>
    match validatePattern tmpl with
    | .error e => .error e
    | .ok _ =>
      let result := applyPattern tmpl source cwd now
      match output with
      | some o =>
        if isDir o then .ok (PyPath.joinName o result.name) else .ok result
      | none => .ok result
  | none =>
    -- Default behavior
    match output with
    | some o =>
      if isDir o || isBatch then
        .ok (PyPath.joinName o (source.stem ++ ".md".toList))
      else
        .ok o
    | none =>
      .ok (PyPath.joinName source.parent (source.stem ++ ".md".toList))

/-- `parse_output_location(source_path, output, pattern, is_batch)`.
The filesystem's answer to `output.is_dir()` is the oracle `isDir`; `cwd`
is the process working directory (`OutputPattern.apply`'s default
`base_dir`).  `.error` is the `ValueError` raised by the `OutputPattern`
constructor for an invalid pattern. -/
def parseOutputLocation (source : PyPath) (output : Option PyPath)
    (pattern : Option Str) (isBatch : Bool) (isDir : PyPath → Bool)
    (now : NowStrings) (cwd : PyPath) : Except Str PyPath :=
  -- If explicit output file is given (and not batch mode), use it
  match output with
  | some o =>
    if o.suffix ≠ [] ∧ isBatch = false then .ok o
    else parseOutputRest source output pattern isBatch isDir now cwd
  | none => parseOutputRest source output pattern isBatch isDir now cwd

/-! ## `core/metadata.py` — `ConversionMetadata` -/

/-- One cache record, the JSON object written by `save_metadata` (which
always writes all six keys).  `source_mtime` is a rational: `st_mtime` is a
finite IEEE double and doubles embed order-preservingly in `ℚ`. -/
structure MetaRecord where
  source : Str
  output : Str
  source_mtime : ℚ
  source_hash : Str
  converted_at : Str
  documark_version : Str
deriving DecidableEq

/-- The filesystem and cache state a single conversion touches.  `meta`
maps a source path to the record stored under that path's key (`none` both
when the record file is missing and when it cannot be read or parsed:
`get_metadata` returns `None` in either case, and an unparsable record is
thereby treated as absent). -/
structure World where
  pathExists : PyPath → Bool
  contents : PyPath → Str
  isDir : PyPath → Bool
  mtime : PyPath → ℚ
  fileHash : PyPath → Str
  meta : PyPath → Option MetaRecord

/-- `ConversionMetadata.needs_conversion(source_path, output_path)`:
true when the output does not exist; true when no record can be read for
the source; true when the source's current mtime is strictly greater than
the recorded `source_mtime`; false otherwise. -/
def needsConversionMeta (w : World) (source output : PyPath) : Bool :=
  if ¬ w.pathExists output then true
  else
    match w.meta source with
    | none => true
    | some record => decide (w.mtime source > record.source_mtime)

/-- The record `save_metadata(source_path, output_path)` builds: absolute
paths, the source's current mtime, its content hash, the current
`isoformat()` timestamp and the version tag. -/
def makeRecord (w : World) (cwd source output : PyPath) (now : NowStrings) :
    MetaRecord :=
  { source := (PyPath.absolutize cwd source).render
    output := (PyPath.absolutize cwd output).render
    source_mtime := w.mtime source
    source_hash := w.fileHash source
    converted_at := now.iso
    documark_version := "0.1.0".toList }

/-- `save_metadata`: write the record under the source's key.  Only the
cache store changes. -/
def saveMetadata (w : World) (cwd source output : PyPath)
    (now : NowStrings) : World :=
  { w with
    meta := fun p =>
      if p = source then some (makeRecord w cwd source output now)
      else w.meta p }

/-! ## `core/converter.py` — `DocumentConverter.convert` -/

/-- A source as `convert` receives it: a string or a `Path`. -/
inductive PySource where
  | str (s : Str)
  | path (p : PyPath)
deriving DecidableEq

/-- The `source.startswith("http://") or source.startswith("https://")`
test. -/
def isUrlString (s : Str) : Bool :=
  decide ("http://".toList <+: s) || decide ("https://".toList <+: s)

/-- `DocumentConverter.needs_conversion(source_path, output_path, force)`:
`force` short-circuits to true; without a metadata tracker only output
existence is checked; otherwise defer to `ConversionMetadata`. -/
def needsConversionConv (cacheMetadata : Bool) (w : World)
    (source output : PyPath) (force : Bool) : Bool :=
  if force then true
  else if ¬ cacheMetadata then ¬ w.pathExists output
  else needsConversionMeta w source output

/-- How a conversion ended, from the caller's point of view: the markdown
returned from a skip (read back from the output file) or from an actual
conversion. -/
inductive ConvTag where
  | skipped
  | converted
deriving DecidableEq

/-- `output_path.write_text(markdown)` after `mkdir(parents=True)`: the
output file now exists with the new content. -/
def writeOutput (w : World) (output : PyPath) (markdown : Str) : World :=
  { w with
    pathExists := fun p => if p = output then true else w.pathExists p
    contents := fun p => if p = output then markdown else w.contents p }

/-- `DocumentConverter.convert(source, output_path, pattern, custom_prompt,
force)`.  The rendering pipeline (processor selection, `get_content`,
image encoding and the LLM call) is the oracle `pipeline`; an `.error`
from it models any exception that phase raises (e.g. no processor found).
Returns the markdown, a skip/convert tag, and the post-state. -/
def convert (cacheMetadata : Bool) (w : World)
    (pipeline : PySource → Except Str Str) (source : PySource)
    (outputPath : Option PyPath) (pattern : Option Str) (force : Bool)
    (now : NowStrings) (cwd : PyPath) : Except Str (Str × ConvTag × World) :=
  -- Resolve paths: non-URL strings become Paths
  let src : PySource :=
    match source with
    | .str s => if isUrlString s then .str s else .path (PyPath.parse s)
    | .path p => .path p
  match src with
  | .path p =>
    -- Determine output path
    match parseOutputLocation p outputPath pattern false w.isDir now cwd with
    | .error e => .error e
    | .ok out =>
      -- Check if conversion is needed
      if ¬ needsConversionConv cacheMetadata w p out force then
        .ok (w.contents out, .skipped, w)
      else
        match pipeline (.path p) with
        | .error e => .error e
        | .ok markdown =>
          let w1 := writeOutput w out markdown
          let w2 :=
            if cacheMetadata then saveMetadata w1 cwd p out now else w1
          .ok (markdown, .converted, w2)
  | .str s =>
    match outputPath with
    | none => .error "Output path required for URL sources".toList
    | some out =>
      -- URL source: no up-to-date check, no metadata save
      match pipeline (.str s) with
      | .error e => .error e
      | .ok markdown => .ok (markdown, .converted, writeOutput w out markdown)

/-! ## `core/metadata.py` — `clean_metadata`

`clean_metadata` iterates over the `*.json` files of the cache directory.
For the model, each file is either `corrupted` (opening or `json.load`
raised, or `datetime.fromisoformat` on the record's `converted_at` raised
`ValueError` — all caught by the same `except` clause) or a parsed record
together with the facts the loop consults: whether the recorded source path
exists, and the parsed `converted_at` instant.  Datetimes are modelled as
integer seconds; `(now - converted_at).days` is `timedelta.days`, the
floor of the difference in days (`Int.fdiv`). -/

/-- One file of the metadata directory, as `clean_metadata` sees it. -/
inductive CacheEntry where
  | corrupted
  | record (sourceExists : Bool) (convertedAt : ℤ)
deriving DecidableEq

/-- `(now - converted_at).days`: floored division of the difference in
seconds by 86400. -/
def ageDays (now convertedAt : ℤ) : ℤ :=
  Int.fdiv (now - convertedAt) 86400

/-- Whether one iteration of the `clean_metadata` loop unlinks its file:
corrupted files always; records whose source no longer exists; and, only
when `older_than_days` is truthy (present and non-zero), records whose age
in whole days exceeds it. -/
def cleanUnlinks (now : ℤ) (olderThanDays : Option ℤ) : CacheEntry → Bool
  | .corrupted => true
  | .record sourceExists convertedAt =>
    if ¬ sourceExists then true
    else
      match olderThanDays with
      | none => false
      | some d =>
        -- `if older_than_days:` — 0 is falsy in Python
        if d = 0 then false
        else decide (ageDays now convertedAt > d)

/-- `clean_metadata(older_than_days)`: run the loop over the directory
listing, returning the count of removed files and the files left behind. -/
def cleanMetadata (now : ℤ) (olderThanDays : Option ℤ) :
    List CacheEntry → ℕ × List CacheEntry
  | [] => (0, [])
  | e :: rest =>
    let (c, kept) := cleanMetadata now olderThanDays rest
    if cleanUnlinks now olderThanDays e then (c + 1, kept)
    else (c, e :: kept)

/-! ## `core/converter.py` — `_convert_with_llm` response handling -/

/-- A parsed JSON value, as `json.loads` produces it. -/
inductive JVal where
  | jnull
  | jbool (b : Bool)
  | jnum (q : ℚ)
  | jstr (s : Str)
  | jarr (elems : List JVal)
  | jobj (fields : List (Str × JVal))

/-- Python dict construction from JSON object fields: later duplicate keys
win. -/
def jsonLookup (key : Str) (fields : List (Str × JVal)) : Option JVal :=
  (fields.reverse.find? (fun kv => kv.1 = key)).map (·.2)

/-- The exception classes the response-handling code can raise or catch. -/
inductive PyExc where
  | jsonDecodeError
  | keyError
  | typeError
  | attributeError
deriving DecidableEq

/-- What the inner `try` of `_convert_with_llm` produces: a markdown string
or an uncaught exception, plus whether the JSON-parse warning was printed. -/
structure LlmOutcome where
  result : Except PyExc Str
  warned : Bool

/-- The response handling of `_convert_with_llm`, from
`response.choices[0].message.content` on.  `content` is the message
content (`None` or a string); `loads` is the stdlib `json.loads` oracle
(`.error` = `JSONDecodeError`).  The code catches exactly
`(json.JSONDecodeError, KeyError)` and falls back to
`cast(str, content).strip()`:
  * `content = None` → `json.loads(None)` raises an uncaught `TypeError`;
  * undecodable text → caught, warning, fallback to the raw text;
  * a decoded non-object → `result["markdown_content"]` raises an uncaught
    `TypeError`;
  * an object without the key → `KeyError`, caught, warning, fallback;
  * the key bound to a non-string → `.strip()` raises an uncaught
    `AttributeError`;
  * the key bound to a string → its stripped value. -/
def handleLlmResponse (content : Option Str)
    (loads : Str → Except Unit JVal) : LlmOutcome :=
  match content with
  | none => { result := .error .typeError, warned := false }
  | some text =>
    match loads text with
    | .error _ => { result := .ok (pyStrip text), warned := true }
    | .ok v =>
      match v with
      | .jobj fields =>
        match jsonLookup "markdown_content".toList fields with
        | none => { result := .ok (pyStrip text), warned := true }
        | some (.jstr s) => { result := .ok (pyStrip s), warned := false }
        | some _ => { result := .error .attributeError, warned := false }
      | _ => { result := .error .typeError, warned := false }

/-! ## `core/async_converter.py` — per-file results and the batch summary -/

/-- The status tag of one file's result dict. -/
inductive FileStatus where
  | success
  | failed
  | skipped
deriving DecidableEq

/-- The result dict `convert_file_async` returns for one file. -/
structure FileResult where
  status : FileStatus
  file : Str
  content : Option Str
  error : Option Str
deriving DecidableEq

/-- `convert_file_async(file_path, ...)`: everything runs inside one
`try`.  `check` is the output-resolution plus `needs_conversion` phase
(its exceptions are caught too); `conv` is the `self.converter.convert`
call run in the executor.  Any exception becomes a `failed` result; an
up-to-date file is `skipped`; otherwise the converted content is a
`success`. -/
def convertFileAsync (file : Str) (check : Except Str Bool)
    (conv : Except Str Str) : FileResult :=
  match check with
  | .error e => { status := .failed, file := file, content := none
                  error := some e }
  | .ok false => { status := .skipped, file := file, content := none
                   error := none }
  | .ok true =>
    match conv with
    | .error e => { status := .failed, file := file, content := none
                    error := some e }
    | .ok c => { status := .success, file := file, content := some c
                 error := none }

/-- The summary dict `convert_recursive_async` returns. -/
structure BatchSummary where
  total : ℕ
  successful : ℕ
  failed : ℕ
  skipped : ℕ
  results : List FileResult
deriving DecidableEq

/-- The aggregation phase of `convert_recursive_async`: one
`convert_file_async` job per discovered file (`asyncio.gather` keeps the
results in input order), then count each status tag.  `checkOf` and
`convOf` give each file's check and conversion outcomes. -/
def convertRecursiveAsync (files : List Str) (checkOf : Str → Except Str Bool)
    (convOf : Str → Except Str Str) : BatchSummary :=
  let results := files.map (fun f => convertFileAsync f (checkOf f) (convOf f))
  { total := files.length
    successful := (results.filter (fun r => r.status = .success)).length
    failed := (results.filter (fun r => r.status = .failed)).length
    skipped := (results.filter (fun r => r.status = .skipped)).length
    results := results }

/-! ## `core/async_converter.py` — the semaphore discipline

`convert_recursive_async` creates `asyncio.Semaphore(self.max_workers)`
and runs every job as

    async with semaphore:
        result = await self.convert_file_async(...)

so a job acquires a permit, performs its cache check, then either finishes
as skipped (releasing) or runs its rendering/extraction phase and then
releases.  The state below counts jobs in each phase plus the free
permits; the transitions are exactly the acquire/release discipline of the
code.  Note the cache check happens *inside* the `async with`: a job
cannot begin its check without holding a permit. -/

/-- Scheduler state of one batch run: free permits and the number of jobs
in each phase. -/
structure SemState where
  permits : ℕ
  pending : ℕ
  checking : ℕ
  rendering : ℕ
  finished : ℕ
deriving DecidableEq, Repr

/-- The initial state: `N` free permits (`asyncio.Semaphore(N)`), all `k`
jobs pending. -/
def semInit (N k : ℕ) : SemState :=
  { permits := N, pending := k, checking := 0, rendering := 0, finished := 0 }

/-- One scheduler step.  `start`: a pending job acquires a permit and
begins its cache check (`async with semaphore:` then the
`needs_conversion` call).  `skip`: an up-to-date job returns, releasing
its permit.  `render`: a stale job moves into its rendering/extraction
phase, still holding its permit.  `finish`: a rendering job completes (or
fails), releasing its permit. -/
inductive SemStep : SemState → SemState → Prop where
  | start (s : SemState) (hp : 0 < s.pending) (hsem : 0 < s.permits) :
      SemStep s { s with permits := s.permits - 1, pending := s.pending - 1
                         checking := s.checking + 1 }
  | skip (s : SemState) (hc : 0 < s.checking) :
      SemStep s { s with checking := s.checking - 1
                         finished := s.finished + 1
                         permits := s.permits + 1 }
  | render (s : SemState) (hc : 0 < s.checking) :
      SemStep s { s with checking := s.checking - 1
                         rendering := s.rendering + 1 }
  | finish (s : SemState) (hr : 0 < s.rendering) :
      SemStep s { s with rendering := s.rendering - 1
                         finished := s.finished + 1
                         permits := s.permits + 1 }

/-- States reachable in a batch run with `N` workers and `k` discovered
files. -/
inductive SemReachable (N k : ℕ) : SemState → Prop where
  | init : SemReachable N k (semInit N k)
  | step {s t : SemState} (hs : SemReachable N k s) (hst : SemStep s t) :
      SemReachable N k t

/-! ## Scenario helpers and concrete fixtures -/

/-- `touch`-ing a source file: set its modification time, leaving all other
filesystem facts alone. -/
def bumpMtime (w : World) (s : PyPath) (m : ℚ) : World :=
  { w with mtime := fun p => if p = s then m else w.mtime p }

/-- A fixed wall clock for concrete evaluations. -/
def nowFixture : NowStrings :=
  { date := "2026-10-12".toList
    clock := "10-00-00".toList
    stamp := "2026-10-12_10-00-00".toList
    iso := "2026-10-12T10:00:00".toList }

/-- The filesystem root, as a path. -/
def rootFixture : PyPath := PyPath.parse "/".toList

/-- A concrete source path. -/
def srcFixture : PyPath := PyPath.parse "/a/b.pdf".toList

/-- A concrete cache record for `srcFixture` (mtime 0). -/
def recFixture : MetaRecord :=
  { source := "/a/b.pdf".toList
    output := "/a/b.md".toList
    source_mtime := 0
    source_hash := "h".toList
    converted_at := "2026-10-12T09:00:00".toList
    documark_version := "0.1.0".toList }

/-- A concrete world: every path exists as a plain file with mtime 0 and
content `"cached"`, and every source has `recFixture` on record. -/
def worldFixture : World :=
  { pathExists := fun _ => true
    contents := fun _ => "cached".toList
    isDir := fun _ => false
    mtime := fun _ => 0
    fileHash := fun _ => "h".toList
    meta := fun _ => some recFixture }

/-! ## C1 — `needs_conversion` -/

/-- C1: `ConversionMetadata.needs_conversion(S, O)` is true iff the output
does not exist, or no record can be read for the source, or the source's
current mtime strictly exceeds the recorded `source_mtime`; and in the
conversion scenario, after `save_metadata` (with the output present and
the source mtime unchanged) a second check is false, while touching the
source to a strictly larger mtime makes it true again. -/
theorem C1_needs_conversion :
    (∀ (w : World) (s o : PyPath),
      needsConversionMeta w s o = true ↔
        (w.pathExists o = false ∨ w.meta s = none ∨
         ∃ r, w.meta s = some r ∧ w.mtime s > r.source_mtime)) ∧
    (∀ (w : World) (cwd s o : PyPath) (now : NowStrings),
      w.pathExists o = true →
      needsConversionMeta (saveMetadata w cwd s o now) s o = false) ∧
    (∀ (w : World) (cwd s o : PyPath) (now : NowStrings) (m : ℚ),
      w.pathExists o = true → m > w.mtime s →
      needsConversionMeta
        (bumpMtime (saveMetadata w cwd s o now) s m) s o = true) := by
  refine ⟨?_, ?_, ?_⟩
  · intro w s o
    unfold needsConversionMeta
    by_cases ho : w.pathExists o
    · simp only [ho, not_true, if_false]
      match hm : w.meta s with
      | none => simp [hm, ho]
      | some r =>
        simp only [hm, ho, Bool.not_eq_true]
        constructor
        · intro h
          exact Or.inr (Or.inr ⟨r, rfl, of_decide_eq_true h⟩)
        · rintro (h | h | ⟨r', hr', hlt⟩)
          · simp [ho] at h
          · simp at h
          · cases hr'
            exact decide_eq_true hlt
    · simp [ho]
  · intro w cwd s o now ho
    unfold needsConversionMeta saveMetadata makeRecord
    simp [ho]
  · intro w cwd s o now m ho hm
    unfold needsConversionMeta bumpMtime saveMetadata makeRecord
    simp [ho, hm]

/-- C1 witness: the scenario at concrete inputs. -/
theorem C1_needs_conversion_witness :
    needsConversionMeta
      (saveMetadata worldFixture rootFixture srcFixture srcFixture nowFixture)
      srcFixture srcFixture = false ∧
    needsConversionMeta
      (bumpMtime
        (saveMetadata worldFixture rootFixture srcFixture srcFixture nowFixture)
        srcFixture 1) srcFixture srcFixture = true :=
  ⟨C1_needs_conversion.2.1 worldFixture rootFixture srcFixture srcFixture
      nowFixture rfl,
   C1_needs_conversion.2.2 worldFixture rootFixture srcFixture srcFixture
      nowFixture 1 rfl (by decide)⟩

/-! ## C2 — up-to-date conversions are skipped and change nothing -/

/-- C2: when the resolved output `O` is up to date
(`needs_conversion(S, O) = false`) and `force` is off,
`DocumentConverter.convert` returns `O`'s previously-written content as a
skip: the returned world is the input world unchanged (no write, no cache
update) and the result does not depend on the rendering pipeline at all
(no rendering happens). -/
theorem C2_skip_idempotent (w : World) (pipeline : PySource → Except Str Str)
    (p : PyPath) (output : Option PyPath) (pattern : Option Str)
    (now : NowStrings) (cwd : PyPath) (O : PyPath)
    (hres : parseOutputLocation p output pattern false w.isDir now cwd = .ok O)
    (hup : needsConversionMeta w p O = false) :
    convert true w pipeline (.path p) output pattern false now cwd
      = .ok (w.contents O, .skipped, w) := by
  unfold convert
  simp only [hres]
  have hnc : needsConversionConv true w p O false = false := by
    unfold needsConversionConv
    simp [hup]
  simp [hnc]

/-- C2 witness: a concrete up-to-date source is skipped. -/
theorem C2_skip_idempotent_witness :
    convert true worldFixture (fun _ => .error "render".toList)
        (.path srcFixture) none none false nowFixture rootFixture
      = .ok (worldFixture.contents (PyPath.parse "/a/b.md".toList),
             .skipped, worldFixture) :=
  C2_skip_idempotent worldFixture (fun _ => .error "render".toList)
    srcFixture none none nowFixture rootFixture
    (PyPath.parse "/a/b.md".toList) rfl (by decide)

/-! ## C3 — `parse_output_location` precedence -/

/-- C3: the destination precedence of `parse_output_location`: an explicit
output with a (file-indicating) suffix is returned verbatim outside batch
mode, whatever the pattern; with no pattern, an explicit output that the
filesystem says is a directory — or any explicit output in batch mode —
yields `<output>/<stem>.md`, an explicit output that is not a directory
(outside batch mode) is returned verbatim, and with neither output nor
pattern the destination is `<source_parent>/<stem>.md`. -/
theorem C3_output_precedence :
    (∀ (source o : PyPath) (pattern : Option Str) (isDir : PyPath → Bool)
       (now : NowStrings) (cwd : PyPath),
      o.suffix ≠ [] →
      parseOutputLocation source (some o) pattern false isDir now cwd
        = .ok o) ∧
    (∀ (source o : PyPath) (isBatch : Bool) (isDir : PyPath → Bool)
       (now : NowStrings) (cwd : PyPath),
      (o.suffix = [] ∨ isBatch = true) →
      (isDir o = true ∨ isBatch = true) →
      parseOutputLocation source (some o) none isBatch isDir now cwd
        = .ok (PyPath.joinName o (source.stem ++ ".md".toList))) ∧
    (∀ (source o : PyPath) (isDir : PyPath → Bool) (now : NowStrings)
       (cwd : PyPath),
      isDir o = false →
      parseOutputLocation source (some o) none false isDir now cwd
        = .ok o) ∧
    (∀ (source : PyPath) (isBatch : Bool) (isDir : PyPath → Bool)
       (now : NowStrings) (cwd : PyPath),
      parseOutputLocation source none none isBatch isDir now cwd
        = .ok (PyPath.joinName source.parent
                 (source.stem ++ ".md".toList))) := by
  refine ⟨?_, ?_, ?_, ?_⟩
  · intro source o pattern isDir now cwd hsuf
    unfold parseOutputLocation
    simp [hsuf]
  · intro source o isBatch isDir now cwd hfall hdir
    unfold parseOutputLocation parseOutputRest
    rcases hfall with hsuf | hbatch
    · rcases hdir with hd | hb
      · simp [hsuf, hd]
      · simp [hsuf, hb]
    · rcases hdir with hd | _
      · simp [hbatch, hd]
      · simp [hbatch]
  · intro source o isDir now cwd hd
    unfold parseOutputLocation parseOutputRest
    by_cases hsuf : o.suffix = []
    · simp [hsuf, hd]
    · simp [hsuf, hd]
  · intro source isBatch isDir now cwd
    unfold parseOutputLocation parseOutputRest
    simp

/-- C3 witness: each precedence clause at concrete inputs. -/
theorem C3_output_precedence_witness :
    parseOutputLocation srcFixture (some (PyPath.parse "/x/y.md".toList))
        none false (fun _ => true) nowFixture rootFixture
      = .ok (PyPath.parse "/x/y.md".toList) ∧
    parseOutputLocation srcFixture (some (PyPath.parse "/out".toList))
        none false (fun _ => true) nowFixture rootFixture
      = .ok (PyPath.joinName (PyPath.parse "/out".toList)
               (srcFixture.stem ++ ".md".toList)) ∧
    parseOutputLocation srcFixture (some (PyPath.parse "/out".toList))
        none false (fun _ => false) nowFixture rootFixture
      = .ok (PyPath.parse "/out".toList) ∧
    parseOutputLocation srcFixture none none false (fun _ => false)
        nowFixture rootFixture
      = .ok (PyPath.joinName srcFixture.parent
               (srcFixture.stem ++ ".md".toList)) :=
  ⟨C3_output_precedence.1 srcFixture (PyPath.parse "/x/y.md".toList) none
      (fun _ => true) nowFixture rootFixture (by decide),
   C3_output_precedence.2.1 srcFixture (PyPath.parse "/out".toList) false
      (fun _ => true) nowFixture rootFixture (Or.inl (by decide))
      (Or.inl rfl),
   C3_output_precedence.2.2.1 srcFixture (PyPath.parse "/out".toList)
      (fun _ => false) nowFixture rootFixture rfl,
   C3_output_precedence.2.2.2 srcFixture false (fun _ => false) nowFixture
      rootFixture⟩

/-! ## C10 — URL sources require an explicit output path -/

/-- C10: for a string source beginning with `http://` or `https://`,
`convert` with no output path raises
`ValueError("Output path required for URL sources")`; the result is this
error for every rendering pipeline and every world, so no processor is
consulted, nothing is fetched and nothing is written. -/
theorem C10_url_requires_output (cacheMetadata : Bool) (w : World)
    (pipeline : PySource → Except Str Str) (s : Str) (pattern : Option Str)
    (force : Bool) (now : NowStrings) (cwd : PyPath)
    (hurl : isUrlString s = true) :
    convert cacheMetadata w pipeline (.str s) none pattern force now cwd
      = .error "Output path required for URL sources".toList := by
  unfold convert
  simp [hurl]

/-- C10 witness: a concrete URL with no output path. -/
theorem C10_url_requires_output_witness :
    convert true worldFixture (fun _ => .ok "md".toList)
        (.str "https://example.com/doc".toList) none none false nowFixture
        rootFixture
      = .error "Output path required for URL sources".toList :=
  C10_url_requires_output true worldFixture (fun _ => .ok "md".toList)
    "https://example.com/doc".toList none false nowFixture rootFixture
    (by decide)

/-! ## C5 — per-file failure isolation and the summary identity -/

/-- Each result has exactly one status tag, so the three status counts
partition any result list. -/
lemma fileResults_partition (rs : List FileResult) :
    rs.length
      = (rs.filter (fun r => r.status = FileStatus.success)).length
        + (rs.filter (fun r => r.status = FileStatus.failed)).length
        + (rs.filter (fun r => r.status = FileStatus.skipped)).length := by
  induction rs with
  | nil => rfl
  | cons r rest ih =>
    cases hs : r.status <;>
      simp [List.filter_cons, hs, ih] <;> omega

/-- C5: in a recursive batch run, every discovered file yields exactly one
result dict, in discovery order; an exception in a file's
resolution/cache-check phase or in its conversion call is caught and
becomes that file's `failed` result (the other slots are unaffected); and
the summary satisfies `total = successful + failed + skipped` with `total`
the number of discovered files. -/
theorem C5_batch_isolation (files : List Str)
    (checkOf : Str → Except Str Bool) (convOf : Str → Except Str Str) :
    (convertRecursiveAsync files checkOf convOf).results.length
        = files.length ∧
    (convertRecursiveAsync files checkOf convOf).total = files.length ∧
    (convertRecursiveAsync files checkOf convOf).total
      = (convertRecursiveAsync files checkOf convOf).successful
        + (convertRecursiveAsync files checkOf convOf).failed
        + (convertRecursiveAsync files checkOf convOf).skipped ∧
    (∀ i, (convertRecursiveAsync files checkOf convOf).results.get? i
        = (files.get? i).map
            (fun f => convertFileAsync f (checkOf f) (convOf f))) ∧
    (∀ f e, checkOf f = .error e →
      (convertFileAsync f (checkOf f) (convOf f)).status = .failed ∧
      (convertFileAsync f (checkOf f) (convOf f)).error = some e) ∧
    (∀ f e, checkOf f = .ok true → convOf f = .error e →
      (convertFileAsync f (checkOf f) (convOf f)).status = .failed ∧
      (convertFileAsync f (checkOf f) (convOf f)).error = some e) := by
  refine ⟨?_, rfl, ?_, ?_, ?_, ?_⟩
  · simp [convertRecursiveAsync]
  · have h := fileResults_partition
      (files.map (fun f => convertFileAsync f (checkOf f) (convOf f)))
    simpa [convertRecursiveAsync] using h
  · intro i
    simp [convertRecursiveAsync, List.get?_map]
  · intro f e hc
    unfold convertFileAsync
    rw [hc]
    exact ⟨rfl, rfl⟩
  · intro f e hc hv
    unfold convertFileAsync
    rw [hc, hv]
    exact ⟨rfl, rfl⟩

/-- Concrete batch: three files where one resolution raises and one
conversion raises. -/
def filesFixture : List Str := ["a".toList, "b".toList, "c".toList]

/-- Concrete check outcomes: `b` is up to date, resolving `c` raises. -/
def checkFixture : Str → Except Str Bool := fun f =>
  if f = "b".toList then .ok false
  else if f = "c".toList then .error "resolve failed".toList
  else .ok true

/-- Concrete conversion outcomes: converting `a` raises. -/
def convFixture : Str → Except Str Str := fun f =>
  if f = "a".toList then .error "boom".toList else .ok "md".toList

/-- C5 witness: the failure clauses and the summary identity at the
concrete batch. -/
theorem C5_batch_isolation_witness :
    (convertRecursiveAsync filesFixture checkFixture convFixture).total
      = (convertRecursiveAsync filesFixture checkFixture convFixture).successful
        + (convertRecursiveAsync filesFixture checkFixture convFixture).failed
        + (convertRecursiveAsync filesFixture checkFixture convFixture).skipped ∧
    (convertFileAsync "c".toList (checkFixture "c".toList)
        (convFixture "c".toList)).status = .failed ∧
    (convertFileAsync "a".toList (checkFixture "a".toList)
        (convFixture "a".toList)).status = .failed :=
  ⟨(C5_batch_isolation filesFixture checkFixture convFixture).2.2.1,
   ((C5_batch_isolation filesFixture checkFixture convFixture).2.2.2.2.1
      "c".toList "resolve failed".toList rfl).1,
   ((C5_batch_isolation filesFixture checkFixture convFixture).2.2.2.2.2
      "a".toList "boom".toList rfl rfl).1⟩

/-! ## C6 — the semaphore bound -/

/-- Permit conservation: free permits plus permit-holding jobs (checking or
rendering) always equal the configured bound. -/
lemma sem_invariant {N k : ℕ} {s : SemState} (h : SemReachable N k s) :
    s.permits + s.checking + s.rendering = N := by
  induction h with
  | init => simp [semInit]
  | step _ hst ih =>
    cases hst <;> simp_all <;> omega

/-- C6 counterexample: cache checks are *not* unthrottled.  With
`workers = 2` and 10 discovered files, the state reached after two jobs
acquire the semaphore and sit in their cache-check phase has a pending job
that cannot begin its check: no step from that state starts a new check,
because the check runs inside `async with semaphore:` and no permit is
free.  This refutes the claim's clause that cache up-to-date checks run
without being throttled by the worker bound. -/
theorem C6_counterexample :
    SemReachable 2 10
      { permits := 0, pending := 8, checking := 2, rendering := 0
        finished := 0 } ∧
    (0:ℕ) < 8 ∧
    ¬ ∃ t, SemStep
        { permits := 0, pending := 8, checking := 2, rendering := 0
          finished := 0 } t ∧ t.checking = 3 := by
  refine ⟨?_, by decide, ?_⟩
  · have h1 : SemStep (semInit 2 10)
        { permits := 1, pending := 9, checking := 1, rendering := 0
          finished := 0 } := by
      have h := SemStep.start (semInit 2 10) (by decide) (by decide)
      simpa [semInit] using h
    have h2 : SemStep
        { permits := 1, pending := 9, checking := 1, rendering := 0
          finished := 0 }
        { permits := 0, pending := 8, checking := 2, rendering := 0
          finished := 0 } := by
      have h := SemStep.start
        { permits := 1, pending := 9, checking := 1, rendering := 0
          finished := 0 } (by decide) (by decide)
      simpa using h
    exact SemReachable.step (SemReachable.step SemReachable.init h1) h2
  · rintro ⟨t, hstep, hch⟩
    cases hstep with
    | start hp hsem => simp at hsem
    | skip hc => simp at hch
    | render hc => simp at hch
    | finish hr => simp at hr

/-- C6 (amended): in every reachable state of a batch run with bound `N`,
at most `N` jobs are in their rendering/extraction phase — and, because
the cache check also runs while holding a semaphore permit, at most `N`
jobs are in their check-or-render span at once (checks are throttled by
the same bound rather than running unthrottled). -/
theorem C6_semaphore_bound_amended {N k : ℕ} {s : SemState}
    (h : SemReachable N k s) :
    s.rendering ≤ N ∧ s.checking + s.rendering ≤ N := by
  have hinv := sem_invariant h
  omega

/-- C6 witness: the bound at a concrete reachable state of the
`workers = 2`, 10-file run. -/
theorem C6_semaphore_bound_amended_witness :
    (semInit 2 10).rendering ≤ 2 ∧
    (semInit 2 10).checking + (semInit 2 10).rendering ≤ 2 :=
  C6_semaphore_bound_amended (SemReachable.init)

/-! ## C7 — `clean_metadata` -/

/-- The removal condition exactly as claim C7 states it (with the age
clause amended to require a non-zero threshold, see
`C7_counterexample`): a record is removed iff it is corrupted, or its
source file no longer exists, or an age threshold `D` was supplied and
its age in whole days strictly exceeds `D`. -/
def removalSpec (now : ℤ) (otd : Option ℤ) (e : CacheEntry) : Prop :=
  e = .corrupted ∨
  (∃ c, e = .record false c) ∨
  (∃ d c, otd = some d ∧ e = .record true c ∧ ageDays now c > d)

/-- The `clean_metadata` loop removes exactly the entries `cleanUnlinks`
selects and keeps the rest in place, returning the removal count. -/
lemma cleanMetadata_eq (now : ℤ) (otd : Option ℤ)
    (entries : List CacheEntry) :
    cleanMetadata now otd entries
      = (entries.countP (cleanUnlinks now otd),
         entries.filter (fun e => ¬ cleanUnlinks now otd e = true)) := by
  induction entries with
  | nil => simp [cleanMetadata]
  | cons e rest ih =>
    by_cases h : cleanUnlinks now otd e = true <;>
      simp [cleanMetadata, ih, h, List.countP_cons, List.filter_cons] <;>
      omega

/-- C7 counterexample: `clean_metadata(older_than_days=0)` removes nothing
by age, because `if older_than_days:` treats `0` as falsy.  A ten-day-old
record whose source still exists survives a `clean` with threshold `D = 0`
even though its age strictly exceeds `D`, and the returned count is `0`,
contradicting the claim for the supplied threshold `D = 0`. -/
theorem C7_counterexample :
    cleanMetadata 864000 (some 0) [CacheEntry.record true 0]
      = (0, [CacheEntry.record true 0]) ∧
    ageDays 864000 0 > 0 := by
  exact ⟨rfl, by decide⟩

/-- C7 (amended): for a threshold that is absent or non-zero,
`clean_metadata` removes exactly the corrupted records, the records whose
source no longer exists, and (when a threshold `D` is supplied) the
records whose age in whole days strictly exceeds `D`; all other records —
in particular records newer than `D` whose sources exist — are left in
place, and the returned count is the number removed. -/
theorem C7_clean_amended (now : ℤ) (otd : Option ℤ)
    (entries : List CacheEntry)
    (hotd : otd = none ∨ ∃ d, otd = some d ∧ d ≠ 0) :
    cleanMetadata now otd entries
      = (entries.countP (cleanUnlinks now otd),
         entries.filter (fun e => ¬ cleanUnlinks now otd e = true)) ∧
    (∀ e ∈ entries, cleanUnlinks now otd e = true ↔ removalSpec now otd e) := by
  refine ⟨cleanMetadata_eq now otd entries, ?_⟩
  intro e _
  cases e with
  | corrupted => simp [cleanUnlinks, removalSpec]
  | record sourceExists convertedAt =>
    cases sourceExists with
    | false => simp [cleanUnlinks, removalSpec]
    | true =>
      rcases hotd with rfl | ⟨d, rfl, hd⟩
      · simp [cleanUnlinks, removalSpec]
      · simp [cleanUnlinks, removalSpec, hd]

/-- C7 witness: a concrete directory with a corrupted record, a record for
a deleted source, a ten-day-old record and a fresh record, cleaned with
threshold 5. -/
theorem C7_clean_amended_witness :
    cleanMetadata 864000 (some 5)
        [CacheEntry.corrupted, CacheEntry.record false 860000,
         CacheEntry.record true 0, CacheEntry.record true 863000]
      = (3, [CacheEntry.record true 863000]) ∧
    (cleanUnlinks 864000 (some 5) (CacheEntry.record true 0) = true ↔
      removalSpec 864000 (some 5) (CacheEntry.record true 0)) := by
  have h := C7_clean_amended 864000 (some 5)
    [CacheEntry.corrupted, CacheEntry.record false 860000,
     CacheEntry.record true 0, CacheEntry.record true 863000]
    (Or.inr ⟨5, rfl, by decide⟩)
  exact ⟨by rw [h.1]; rfl,
         h.2 (CacheEntry.record true 0) (by simp)⟩

/-! ## C9 — LLM response-shape handling -/

/-- `json.loads` behaving as the stdlib does on the concrete response body
`"[1, 2]"`: a JSON array. -/
def loadsArr : Str → Except Unit JVal := fun s =>
  if s = "[1, 2]".toList then .ok (.jarr [.jnum 1, .jnum 2])
  else .error ()

/-- C9 counterexample: a response body that is valid JSON but not an
object.  `json.loads` succeeds, then `result["markdown_content"]` raises
`TypeError`, which the `except (json.JSONDecodeError, KeyError)` clause
does not catch: the job fails even though response text is available and
the parsed value lacks the `markdown_content` field, contradicting the
claim that such a response-shape mismatch never fails the job. -/
theorem C9_counterexample :
    (handleLlmResponse (some "[1, 2]".toList) loadsArr).result
        = .error PyExc.typeError ∧
    "[1, 2]".toList ≠ [] := by
  exact ⟨rfl, by decide⟩

/-- C9 (amended): when response text is present, an undecodable body falls
back to the raw text (stripped) with a warning, and a decoded JSON
*object* lacking `markdown_content` likewise falls back with a warning
(`KeyError` is caught); a string-valued `markdown_content` is returned
stripped without warning; an absent body fails with an uncaught
`TypeError`.  (A decoded non-object body, or a non-string field value,
fails the job — see `C9_counterexample`.) -/
theorem C9_response_fallback_amended (text : Str)
    (loads : Str → Except Unit JVal) :
    (∀ e, loads text = .error e →
      handleLlmResponse (some text) loads
        = { result := .ok (pyStrip text), warned := true }) ∧
    (∀ fields, loads text = .ok (.jobj fields) →
      jsonLookup "markdown_content".toList fields = none →
      handleLlmResponse (some text) loads
        = { result := .ok (pyStrip text), warned := true }) ∧
    (∀ fields s, loads text = .ok (.jobj fields) →
      jsonLookup "markdown_content".toList fields = some (.jstr s) →
      handleLlmResponse (some text) loads
        = { result := .ok (pyStrip s), warned := false }) ∧
    handleLlmResponse none loads
      = { result := .error .typeError, warned := false } := by
  refine ⟨?_, ?_, ?_, rfl⟩
  · intro e he
    simp [handleLlmResponse, he]
  · intro fields hf hl
    simp only [handleLlmResponse, hf, hl]
  · intro fields s hf hl
    simp only [handleLlmResponse, hf, hl]

/-- `json.loads` on the concrete response bodies of the C9 witness: one
undecodable body and one well-shaped object. -/
def loadsFixture : Str → Except Unit JVal := fun s =>
  if s = "not json".toList then .error ()
  else .ok (.jobj [("markdown_content".toList, .jstr "  # Title  ".toList)])

/-- C9 witness: the fallback and the happy path at concrete responses. -/
theorem C9_response_fallback_amended_witness :
    handleLlmResponse (some "not json".toList) loadsFixture
      = { result := .ok (pyStrip "not json".toList), warned := true } ∧
    handleLlmResponse (some "ok".toList) loadsFixture
      = { result := .ok (pyStrip "  # Title  ".toList), warned := false } :=
  ⟨(C9_response_fallback_amended "not json".toList loadsFixture).1 () rfl,
   (C9_response_fallback_amended "ok".toList loadsFixture).2.2.1
      [("markdown_content".toList, .jstr "  # Title  ".toList)]
      "  # Title  ".toList rfl rfl⟩

/-! ## C8 — relative expansions land beside the source -/

/-- C8: when the substituted pattern expands to a relative path and the
template does not contain `{path}`, `OutputPattern.apply` joins the
expansion under the source file's own parent directory (not under the
invocation's working directory `base`). -/
theorem C8_relative_beside_source (tmpl : Str) (source base : PyPath)
    (now : NowStrings)
    (hnopath : containsSub tmpl "{path}".toList = false)
    (hrel : (PyPath.parse (substitute tmpl
        (buildValues source ((PyPath.relativeTo source base).getD source)
          now))).absolute = false) :
    applyPattern tmpl source base now
      = PyPath.join source.parent
          (PyPath.parse (substitute tmpl
            (buildValues source ((PyPath.relativeTo source base).getD source)
              now))) := by
  unfold applyPattern
  rw [if_neg (by simp [hrel]), if_neg (by simpa using hnopath)]

-- C8 witness: the claim's example — pattern `".{filename}.md"` applied to
-- `/docs/report.pdf` yields `/docs/.report.md`.
unseal pyReplace in
theorem C8_relative_beside_source_witness :
    containsSub ".{filename}.md".toList "{path}".toList = false ∧
    applyPattern ".{filename}.md".toList
        (PyPath.parse "/docs/report.pdf".toList) rootFixture nowFixture
      = PyPath.parse "/docs/.report.md".toList := by
  refine ⟨by decide, ?_⟩
  rw [C8_relative_beside_source _ _ _ _ (by decide) (by decide)]
  decide

/-! ## C4 — placeholder validation and substitution

To speak about templates "containing only recognized placeholders" we give
the brace structure of a template explicitly: a template is a
concatenation of segments, each a brace-free literal or a `{name}`
placeholder.  `renderSegs` produces the template string; the substitution
lemmas below relate `pyReplace` on the rendered string to a per-segment
substitution. -/

/-- A template segment: literal text or a `{name}` placeholder. -/
inductive Seg where
  | lit (s : Str)
  | ph (v : Str)
deriving DecidableEq, Repr

/-- The text of one segment. -/
def renderSeg : Seg → Str
  | .lit s => s
  | .ph v => braced v

/-- The template string of a segment list. -/
def renderSegs (segs : List Seg) : Str :=
  (segs.map renderSeg).join

/-- Wellformedness: literals contain no `'{'` and placeholder names are
non-empty words. -/
def GoodSeg : Seg → Prop
  | .lit s => '{' ∉ s
  | .ph v => v ≠ [] ∧ ∀ c ∈ v, isWordChar c

/-- Substituting one key: the placeholder named `k` becomes the literal
`v`; everything else is untouched. -/
def substSeg (k v : Str) : Seg → Seg
  | .lit s => .lit s
  | .ph n => if n = k then .lit v else .ph n

/-- Substituting a whole table, first key first (the fold order of
`OutputPattern.apply`). -/
def substAllSegs (pairs : List (Str × Str)) (segs : List Seg) : List Seg :=
  pairs.foldl (fun sgs kv => sgs.map (substSeg kv.1 kv.2)) segs

/-- Unfolding `pyReplace` one character at a time. -/
lemma pyReplace_nil (needle repl : Str) : pyReplace needle repl [] = [] := by
  rw [pyReplace]

/-- Unfolding `pyReplace` at a cons cell. -/
lemma pyReplace_cons (needle repl : Str) (c : Char) (rest : Str) :
    pyReplace needle repl (c :: rest)
      = if needle ≠ [] ∧ needle <+: (c :: rest) then
          repl ++ pyReplace needle repl (List.drop needle.length (c :: rest))
        else c :: pyReplace needle repl rest := by
  rw [pyReplace]
  split <;> rfl

/-- `pyReplace` with needle `{k}` passes over a `'{'`-free stretch of
text unchanged. -/
lemma pyReplace_append_nomatch (k repl s t : Str) (hs : '{' ∉ s) :
    pyReplace (braced k) repl (s ++ t)
      = s ++ pyReplace (braced k) repl t := by
  induction s with
  | nil => simp
  | cons c s ih =>
    have hc : c ≠ '{' := fun h => hs (h ▸ List.mem_cons_self c s)
    have hs' : '{' ∉ s := fun h => hs (List.mem_cons_of_mem c h)
    rw [List.cons_append, pyReplace_cons, if_neg]
    · simp [ih hs']
    · rintro ⟨-, hpre⟩
      rw [show braced k = '{' :: (k ++ ['}']) from rfl] at hpre
      exact hc ((List.cons_prefix_cons.mp hpre).1.symm)

/-- A word-run needle extended by `'}'` matches a word-run haystack
extended by `'}'` exactly when the runs are equal: word characters are
never `'}'`, so neither run can end early. -/
lemma wordRun_prefix_iff (t : Str) :
    ∀ (k n : Str), (∀ c ∈ k, isWordChar c) → (∀ c ∈ n, isWordChar c) →
      ((k ++ ['}']) <+: (n ++ '}' :: t) ↔ k = n) := by
  intro k
  induction k with
  | nil =>
    intro n _ hn
    cases n with
    | nil => simp
    | cons b n' =>
      simp only [List.nil_append]
      constructor
      · intro h
        have hb := (List.cons_prefix_cons.mp h).1
        have := hn b (List.mem_cons_self b n')
        rw [← hb] at this
        exact absurd this (by decide)
      · intro h
        exact absurd h (by simp)
  | cons a k' ih =>
    intro n hk hn
    have ha := hk a (List.mem_cons_self a k')
    have hk' : ∀ c ∈ k', isWordChar c := fun c hc =>
      hk c (List.mem_cons_of_mem a hc)
    cases n with
    | nil =>
      simp only [List.nil_append]
      constructor
      · intro h
        have := (List.cons_prefix_cons.mp h).1
        rw [this] at ha
        exact absurd ha (by decide)
      · intro h
        exact absurd h (by simp)
    | cons b n' =>
      have hn' : ∀ c ∈ n', isWordChar c := fun c hc =>
        hn c (List.mem_cons_of_mem b hc)
      constructor
      · intro h
        have h2 := List.cons_prefix_cons.mp h
        have h3 := (ih n' hk' hn').mp h2.2
        rw [h2.1, h3]
      · intro heq
        injection heq with h1 h2
        subst h1
        subst h2
        exact List.cons_prefix_cons.mpr ⟨rfl, (ih k' hk' hk').mpr rfl⟩

/-- `pyReplace` with needle `{k}` fires exactly at a leading occurrence
of `{k}`. -/
lemma pyReplace_at_match (k repl t : Str) :
    pyReplace (braced k) repl (braced k ++ t)
      = repl ++ pyReplace (braced k) repl t := by
  rw [show braced k ++ t = '{' :: ((k ++ ['}']) ++ t) from rfl, pyReplace_cons,
    if_pos ⟨by simp [braced],
      by
        rw [show ('{' :: ((k ++ ['}']) ++ t)) = braced k ++ t from rfl]
        exact List.prefix_append _ _⟩]
  rw [show ('{' :: ((k ++ ['}']) ++ t)) = braced k ++ t from rfl,
    List.drop_left]

/-- `pyReplace` with needle `{k}` passes over a placeholder with a
different word name. -/
lemma pyReplace_at_other (k n repl t : Str) (hne : n ≠ k)
    (hk : ∀ c ∈ k, isWordChar c) (hn : ∀ c ∈ n, isWordChar c) :
    pyReplace (braced k) repl (braced n ++ t)
      = braced n ++ pyReplace (braced k) repl t := by
  rw [show braced n ++ t = '{' :: ((n ++ ['}']) ++ t) from rfl,
    pyReplace_cons, if_neg]
  · rw [pyReplace_append_nomatch k repl (n ++ ['}']) t ?_]
    · rfl
    · intro hmem
      rcases List.mem_append.mp hmem with h | h
      · have := hn _ h
        exact absurd this (by decide)
      · simp at h
  · rintro ⟨-, hpre⟩
    rw [show braced k = '{' :: (k ++ ['}']) from rfl] at hpre
    have h2 := (List.cons_prefix_cons.mp hpre).2
    rw [show ((n ++ ['}']) ++ t) = n ++ '}' :: t by simp] at h2
    exact hne ((wordRun_prefix_iff t k n hk hn).mp h2).symm

/-- Splitting a template string at its segments: one `str.replace` pass
with needle `{k}` substitutes exactly the `k`-placeholders. -/
lemma pyReplace_renderSegs (k v : Str) (hk : ∀ c ∈ k, isWordChar c) :
    ∀ (segs : List Seg), (∀ sg ∈ segs, GoodSeg sg) →
      pyReplace (braced k) v (renderSegs segs)
        = renderSegs (segs.map (substSeg k v)) := by
  intro segs
  induction segs with
  | nil =>
    intro _
    simp [renderSegs, pyReplace_nil]
  | cons sg rest ih =>
    intro hgood
    have hrest : ∀ s ∈ rest, GoodSeg s := fun s hs =>
      hgood s (List.mem_cons_of_mem sg hs)
    have hsg : GoodSeg sg := hgood sg (List.mem_cons_self sg rest)
    have hrender : renderSegs (sg :: rest) = renderSeg sg ++ renderSegs rest := by
      simp [renderSegs]
    cases sg with
    | lit s =>
      rw [hrender, renderSeg]
      rw [pyReplace_append_nomatch k v s (renderSegs rest) hsg, ih hrest]
      simp [renderSegs, substSeg, renderSeg]
    | ph n =>
      rw [hrender, renderSeg]
      by_cases hn : n = k
      · subst hn
        rw [pyReplace_at_match n v (renderSegs rest), ih hrest]
        simp [renderSegs, substSeg, renderSeg]
      · rw [pyReplace_at_other k n v (renderSegs rest) hn hk hsg.2, ih hrest]
        simp [renderSegs, substSeg, renderSeg, hn]

/-- Wellformedness survives one substitution with a brace-free value. -/
lemma goodSeg_substSeg (k v : Str) (hv : '{' ∉ v) (sg : Seg)
    (h : GoodSeg sg) : GoodSeg (substSeg k v sg) := by
  cases sg with
  | lit s => exact h
  | ph n =>
    by_cases hn : n = k
    · simpa [substSeg, hn, GoodSeg] using hv
    · simpa [substSeg, hn] using h

/-- The full substitution fold of `OutputPattern.apply` acts segmentwise
when every key is a word and every value is brace-free. -/
lemma substitute_renderSegs :
    ∀ (pairs : List (Str × Str)) (segs : List Seg),
      (∀ kv ∈ pairs, ∀ c ∈ kv.1, isWordChar c) →
      (∀ kv ∈ pairs, '{' ∉ kv.2) →
      (∀ sg ∈ segs, GoodSeg sg) →
      substitute (renderSegs segs) pairs
        = renderSegs (substAllSegs pairs segs) := by
  intro pairs
  induction pairs with
  | nil =>
    intro segs _ _ _
    rfl
  | cons kv rest ih =>
    intro segs hkeys hvals hgood
    have hkv : ∀ c ∈ kv.1, isWordChar c :=
      hkeys kv (List.mem_cons_self kv rest)
    have hv : '{' ∉ kv.2 := hvals kv (List.mem_cons_self kv rest)
    have hstep := pyReplace_renderSegs kv.1 kv.2 hkv segs hgood
    have hgood' : ∀ sg ∈ segs.map (substSeg kv.1 kv.2), GoodSeg sg := by
      intro sg hsg
      rcases List.mem_map.mp hsg with ⟨sg', hsg', rfl⟩
      exact goodSeg_substSeg kv.1 kv.2 hv sg' (hgood sg' hsg')
    calc substitute (renderSegs segs) (kv :: rest)
        = substitute (pyReplace (braced kv.1) kv.2 (renderSegs segs)) rest := by
          simp [substitute]
      _ = substitute (renderSegs (segs.map (substSeg kv.1 kv.2))) rest := by
          rw [hstep]
      _ = renderSegs (substAllSegs rest (segs.map (substSeg kv.1 kv.2))) :=
          ih _ (fun kv' h => hkeys kv' (List.mem_cons_of_mem kv h))
            (fun kv' h => hvals kv' (List.mem_cons_of_mem kv h)) hgood'
      _ = renderSegs (substAllSegs (kv :: rest) segs) := by
          simp [substAllSegs]

/-- After substituting every key that occurs as a placeholder, only
literal segments remain. -/
lemma substAllSegs_all_lit :
    ∀ (pairs : List (Str × Str)) (segs : List Seg),
      (∀ n, Seg.ph n ∈ segs → n ∈ pairs.map Prod.fst) →
      ∀ sg ∈ substAllSegs pairs segs, ∃ s, sg = Seg.lit s := by
  intro pairs
  induction pairs with
  | nil =>
    intro segs h sg hsg
    cases sg with
    | lit s => exact ⟨s, rfl⟩
    | ph n => exact absurd (h n hsg) (by simp)
  | cons kv rest ih =>
    intro segs h sg hsg
    have hsg' : sg ∈ substAllSegs rest (segs.map (substSeg kv.1 kv.2)) := by
      simpa [substAllSegs] using hsg
    apply ih (segs.map (substSeg kv.1 kv.2)) ?_ sg hsg'
    intro n hn
    rcases List.mem_map.mp hn with ⟨sg', hsg'', heq⟩
    cases sg' with
    | lit s => simp [substSeg] at heq
    | ph m =>
      by_cases hm : m = kv.1
      · simp [substSeg, hm] at heq
      · have hmn : m = n := by
          simpa [substSeg, hm] using heq
        subst hmn
        have := h m hsg''
        simp only [List.map_cons, List.mem_cons] at this
        rcases this with h1 | h1
        · exact absurd h1 hm
        · exact h1

/-- Wellformedness survives the whole fold. -/
lemma substAllSegs_good :
    ∀ (pairs : List (Str × Str)) (segs : List Seg),
      (∀ kv ∈ pairs, '{' ∉ kv.2) →
      (∀ sg ∈ segs, GoodSeg sg) →
      ∀ sg ∈ substAllSegs pairs segs, GoodSeg sg := by
  intro pairs
  induction pairs with
  | nil =>
    intro segs _ hgood sg hsg
    exact hgood sg hsg
  | cons kv rest ih =>
    intro segs hvals hgood sg hsg
    have hsg' : sg ∈ substAllSegs rest (segs.map (substSeg kv.1 kv.2)) := by
      simpa [substAllSegs] using hsg
    apply ih (segs.map (substSeg kv.1 kv.2))
      (fun kv' h => hvals kv' (List.mem_cons_of_mem kv h)) ?_ sg hsg'
    intro sg' hsg''
    rcases List.mem_map.mp hsg'' with ⟨sg'', hsg''', rfl⟩
    exact goodSeg_substSeg kv.1 kv.2
      (hvals kv (List.mem_cons_self kv rest)) sg'' (hgood sg'' hsg''')

/-- A template made of brace-free literals renders brace-free. -/
lemma renderSegs_no_brace :
    ∀ (segs : List Seg), (∀ sg ∈ segs, GoodSeg sg) →
      (∀ sg ∈ segs, ∃ s, sg = Seg.lit s) → '{' ∉ renderSegs segs := by
  intro segs
  induction segs with
  | nil => intro _ _ h; simp [renderSegs] at h
  | cons sg rest ih =>
    intro hgood hlit hmem
    have hrest := ih (fun s hs => hgood s (List.mem_cons_of_mem sg hs))
      (fun s hs => hlit s (List.mem_cons_of_mem sg hs))
    rcases hlit sg (List.mem_cons_self sg rest) with ⟨s, rfl⟩
    have hs : '{' ∉ s := hgood (.lit s) (List.mem_cons_self _ rest)
    have : renderSegs (Seg.lit s :: rest) = s ++ renderSegs rest := by
      simp [renderSegs, renderSeg]
    rw [this] at hmem
    rcases List.mem_append.mp hmem with h | h
    · exact hs h
    · exact hrest h

/-- Unfolding `findPlaceholders` at a cons cell. -/
lemma findPlaceholders_cons (c : Char) (rest : Str) :
    findPlaceholders (c :: rest)
      = if c = '{' then
          let w := rest.takeWhile isWordChar
          if w ≠ [] ∧ List.drop w.length rest ≠ [] ∧
              (List.drop w.length rest).headI = '}' then
            w :: findPlaceholders (List.tail (List.drop w.length rest))
          else
            findPlaceholders rest
        else findPlaceholders rest := by
  rw [findPlaceholders]

/-- A brace-free string has no placeholder tokens at all. -/
lemma findPlaceholders_eq_nil (s : Str) (h : '{' ∉ s) :
    findPlaceholders s = [] := by
  induction s with
  | nil => rw [findPlaceholders]
  | cons c rest ih =>
    have hc : c ≠ '{' := fun hx => h (hx ▸ List.mem_cons_self c rest)
    rw [findPlaceholders_cons, if_neg hc]
    exact ih (fun hx => h (List.mem_cons_of_mem c hx))

/-- A path all of whose components avoid `'{'`. -/
def BraceFreePath (p : PyPath) : Prop :=
  ∀ part ∈ p.parts, '{' ∉ part

/-- Characters of a `'/'`-join come from the separator or a component. -/
lemma mem_joinSlash :
    ∀ (ps : List Str) (c : Char), c ∈ joinSlash ps →
      c = '/' ∨ ∃ p ∈ ps, c ∈ p := by
  intro ps
  induction ps with
  | nil => intro c h; simp [joinSlash] at h
  | cons p ps ih =>
    intro c h
    cases ps with
    | nil =>
      right
      exact ⟨p, List.mem_cons_self p [], by simpa [joinSlash] using h⟩
    | cons q qs =>
      rw [show joinSlash (p :: q :: qs) = p ++ '/' :: joinSlash (q :: qs)
          from rfl] at h
      rcases List.mem_append.mp h with h1 | h1
      · exact Or.inr ⟨p, List.mem_cons_self p _, h1⟩
      · rcases List.mem_cons.mp h1 with rfl | h2
        · exact Or.inl rfl
        · rcases ih c h2 with h3 | ⟨r, hr, hcr⟩
          · exact Or.inl h3
          · exact Or.inr ⟨r, List.mem_cons_of_mem p hr, hcr⟩

/-- Rendering a brace-free path yields a brace-free string. -/
lemma render_no_brace (p : PyPath) (h : BraceFreePath p) :
    '{' ∉ p.render := by
  intro hmem
  unfold PyPath.render at hmem
  by_cases ha : p.absolute
  · rw [if_pos ha] at hmem
    rcases List.mem_cons.mp hmem with h1 | h1
    · exact absurd h1 (by decide)
    · rcases mem_joinSlash p.parts '{' h1 with h2 | ⟨r, hr, hcr⟩
      · exact absurd h2 (by decide)
      · exact h r hr hcr
  · rw [if_neg ha] at hmem
    by_cases hp : p.parts = []
    · rw [if_pos hp] at hmem
      exact absurd hmem (by decide)
    · rw [if_neg hp] at hmem
      rcases mem_joinSlash p.parts '{' hmem with h2 | ⟨r, hr, hcr⟩
      · exact absurd h2 (by decide)
      · exact h r hr hcr

/-- `splitOnChar` never produces the empty list of components. -/
lemma splitOnChar_ne_nil (sep : Char) :
    ∀ (s : Str), splitOnChar sep s ≠ [] := by
  intro s
  cases s with
  | nil => simp [splitOnChar]
  | cons c rest =>
    unfold splitOnChar
    match h : splitOnChar sep rest with
    | [] => simp
    | cur :: rs =>
      by_cases hc : c = sep <;> simp [hc]

/-- Characters of a split component come from the split string. -/
lemma splitOnChar_mem (sep : Char) :
    ∀ (s part : Str), part ∈ splitOnChar sep s → ∀ c ∈ part, c ∈ s := by
  intro s
  induction s with
  | nil =>
    intro part hpart c hc
    simp [splitOnChar] at hpart
    subst hpart
    simp at hc
  | cons x rest ih =>
    intro part hpart c hc
    unfold splitOnChar at hpart
    match h : splitOnChar sep rest with
    | [] => exact absurd h (splitOnChar_ne_nil sep rest)
    | cur :: rs =>
      rw [h] at hpart
      have hpart : part ∈ (if x = sep then [] :: cur :: rs
          else (x :: cur) :: rs) := hpart
      by_cases hx : x = sep
      · rw [if_pos hx] at hpart
        rcases List.mem_cons.mp hpart with rfl | h1
        · simp at hc
        · have : part ∈ splitOnChar sep rest := h ▸ h1
          exact List.mem_cons_of_mem x (ih part this c hc)
      · rw [if_neg hx] at hpart
        rcases List.mem_cons.mp hpart with rfl | h1
        · rcases List.mem_cons.mp hc with rfl | h2
          · exact List.mem_cons_self c rest
          · have : cur ∈ splitOnChar sep rest := h ▸ List.mem_cons_self cur rs
            exact List.mem_cons_of_mem x (ih cur this c h2)
        · have : part ∈ splitOnChar sep rest := h ▸ List.mem_cons_of_mem cur h1
          exact List.mem_cons_of_mem x (ih part this c hc)

/-- Parsing a brace-free string yields a brace-free path. -/
lemma parse_no_brace (s : Str) (h : '{' ∉ s) :
    BraceFreePath (PyPath.parse s) := by
  intro part hpart hc
  have h1 : part ∈ splitOnChar '/' s := List.mem_of_mem_filter hpart
  exact h (splitOnChar_mem '/' s part h1 '{' hc)

/-- Joining brace-free paths stays brace-free. -/
lemma join_no_brace (a b : PyPath) (ha : BraceFreePath a)
    (hb : BraceFreePath b) : BraceFreePath (PyPath.join a b) := by
  intro part hpart
  rcases List.mem_append.mp hpart with h | h
  · exact ha part h
  · exact hb part h

/-- The parent of a brace-free path is brace-free. -/
lemma parent_no_brace (p : PyPath) (h : BraceFreePath p) :
    BraceFreePath p.parent := by
  intro part hpart
  exact h part (List.dropLast_subset p.parts hpart)

/-- The final component of a brace-free path is brace-free. -/
lemma name_no_brace (p : PyPath) (h : BraceFreePath p) :
    '{' ∉ p.name := by
  unfold PyPath.name
  match hl : p.parts.getLast? with
  | none => simp
  | some part =>
    simpa using h part (List.mem_of_mem_getLast? hl)

/-- The stem of a brace-free path is brace-free. -/
lemma stem_no_brace (p : PyPath) (h : BraceFreePath p) :
    '{' ∉ p.stem := by
  intro hc
  exact name_no_brace p h (List.take_subset _ _ hc)

/-- The de-dotted suffix of a brace-free path is brace-free. -/
lemma ext_no_brace (p : PyPath) (h : BraceFreePath p) :
    '{' ∉ p.suffix.dropWhile (· = '.') := by
  intro hc
  have h1 : '{' ∈ p.suffix := (List.dropWhile_sublist _).subset hc
  unfold PyPath.suffix PyPath.suffixOfName at h1
  apply name_no_brace p h
  match hl : ((List.range p.name.length).filter
      (fun i => p.name.getD i ' ' = '.')).getLast? with
  | none => rw [hl] at h1; simp at h1
  | some i =>
    rw [hl] at h1
    have h1 : '{' ∈ (if 0 < i ∧ i < p.name.length - 1
        then List.drop i p.name else []) := h1
    by_cases hcond : 0 < i ∧ i < p.name.length - 1
    · rw [if_pos hcond] at h1
      exact List.drop_subset _ _ h1
    · rw [if_neg hcond] at h1
      simp at h1

/-- Every recognized variable name is a non-empty ASCII word. -/
lemma variableKeys_wordish :
    ∀ v ∈ variableKeys, ∀ c ∈ v, isWordChar c = true := by
  decide

/-- All ten substitution values are brace-free when the source path, the
relative path and the clock strings are. -/
lemma buildValues_no_brace (source relPath : PyPath) (now : NowStrings)
    (hsrc : BraceFreePath source) (hrel : BraceFreePath relPath)
    (hd : '{' ∉ now.date) (hc : '{' ∉ now.clock) (hs : '{' ∉ now.stamp) :
    ∀ kv ∈ buildValues source relPath now, '{' ∉ kv.2 := by
  intro kv hkv
  simp only [buildValues, List.mem_cons, List.not_mem_nil, or_false] at hkv
  rcases hkv with rfl | rfl | rfl | rfl | rfl | rfl | rfl | rfl | rfl | rfl
  · exact stem_no_brace source hsrc
  · exact stem_no_brace source hsrc
  · exact ext_no_brace source hsrc
  · exact ext_no_brace source hsrc
  · exact name_no_brace _ (parent_no_brace source hsrc)
  · exact name_no_brace _ (parent_no_brace source hsrc)
  · exact render_no_brace _ (parent_no_brace relPath hrel)
  · exact hd
  · exact hc
  · exact hs

/-- The substitution keys of `apply` are exactly the recognized names. -/
lemma buildValues_keys (source relPath : PyPath) (now : NowStrings) :
    (buildValues source relPath now).map Prod.fst = variableKeys := rfl

/-- `applyPattern` with its let-bindings expanded. -/
lemma applyPattern_eq (tmpl : Str) (source base : PyPath)
    (now : NowStrings) :
    applyPattern tmpl source base now
      = (if (PyPath.parse (substitute tmpl (buildValues source
              ((PyPath.relativeTo source base).getD source) now))).absolute
          then PyPath.parse (substitute tmpl (buildValues source
              ((PyPath.relativeTo source base).getD source) now))
         else if containsSub tmpl ("{path}".toList)
          then PyPath.join base (PyPath.parse (substitute tmpl
              (buildValues source
                ((PyPath.relativeTo source base).getD source) now)))
          else PyPath.join source.parent (PyPath.parse (substitute tmpl
              (buildValues source
                ((PyPath.relativeTo source base).getD source) now)))) := rfl

/-- The relative-path fallback of `apply` preserves brace-freeness. -/
lemma relPath_no_brace (source base : PyPath) (hsrc : BraceFreePath source) :
    BraceFreePath ((PyPath.relativeTo source base).getD source) := by
  unfold PyPath.relativeTo
  by_cases hcond : source.absolute = base.absolute ∧
      base.parts <+: source.parts
  · rw [if_pos hcond]
    intro part hpart
    exact hsrc part (List.drop_subset _ _ hpart)
  · rw [if_neg hcond]
    exact hsrc

/-- C4 (amended): `OutputPattern` construction fails exactly when some
`{word}` token of the template is not a recognized name; and for every
template that is a concatenation of brace-free literals and recognized
placeholders, applied to a source path and working directory whose
components contain no `'{'` (with brace-free clock strings), the resulting
path carries no remaining `{word}` token.  (Without the brace-structure
restriction the token-freeness fails: see the counterexample, where the
template `"{{name}}"` validates yet leaves a token.) -/
theorem C4_pattern_validation_amended :
    (∀ tmpl : Str,
      validatePattern tmpl = .ok () ↔
        ∀ v ∈ findPlaceholders tmpl, v ∈ variableKeys) ∧
    (∀ (segs : List Seg) (source base : PyPath) (now : NowStrings),
      (∀ sg ∈ segs, GoodSeg sg) →
      (∀ n, Seg.ph n ∈ segs → n ∈ variableKeys) →
      BraceFreePath source → BraceFreePath base →
      '{' ∉ now.date → '{' ∉ now.clock → '{' ∉ now.stamp →
      findPlaceholders
        ((applyPattern (renderSegs segs) source base now).render) = []) := by
  constructor
  · intro tmpl
    unfold validatePattern
    by_cases hf : (findPlaceholders tmpl).filter
        (fun v => ! variableKeys.contains v) = []
    · rw [if_neg (by simpa using hf)]
      simp only [List.filter_eq_nil] at hf
      simp only [true_iff]
      intro v hv
      have := hf v hv
      simpa [List.elem_iff] using this
    · rw [if_pos (by simpa using hf)]
      constructor
      · intro h
        exact absurd h (by simp)
      · intro hall
        exfalso
        apply hf
        rw [List.filter_eq_nil]
        intro v hv
        simpa [List.elem_iff] using hall v hv
  · intro segs source base now hgood hnames hsrc hbase hd hc hs
    have hrelbf : BraceFreePath ((PyPath.relativeTo source base).getD source) :=
      relPath_no_brace source base hsrc
    have hkeys : ∀ kv ∈ buildValues source
        ((PyPath.relativeTo source base).getD source) now,
        ∀ ch ∈ kv.1, isWordChar ch := by
      intro kv hkv
      have hmem : kv.1 ∈ variableKeys := by
        rw [← buildValues_keys source
          ((PyPath.relativeTo source base).getD source) now]
        exact List.mem_map_of_mem Prod.fst hkv
      exact variableKeys_wordish kv.1 hmem
    have hvals : ∀ kv ∈ buildValues source
        ((PyPath.relativeTo source base).getD source) now, '{' ∉ kv.2 :=
      buildValues_no_brace source _ now hsrc hrelbf hd hc hs
    have hexp : substitute (renderSegs segs) (buildValues source
          ((PyPath.relativeTo source base).getD source) now)
        = renderSegs (substAllSegs (buildValues source
            ((PyPath.relativeTo source base).getD source) now) segs) :=
      substitute_renderSegs _ segs hkeys hvals hgood
    have hlit : ∀ sg ∈ substAllSegs (buildValues source
        ((PyPath.relativeTo source base).getD source) now) segs,
        ∃ s, sg = Seg.lit s := by
      apply substAllSegs_all_lit
      intro n hn
      rw [buildValues_keys source
        ((PyPath.relativeTo source base).getD source) now]
      exact hnames n hn
    have hgood2 : ∀ sg ∈ substAllSegs (buildValues source
        ((PyPath.relativeTo source base).getD source) now) segs,
        GoodSeg sg :=
      substAllSegs_good _ segs hvals hgood
    have hnb : '{' ∉ substitute (renderSegs segs) (buildValues source
        ((PyPath.relativeTo source base).getD source) now) := by
      rw [hexp]
      exact renderSegs_no_brace _ hgood2 hlit
    have hbfparse : BraceFreePath (PyPath.parse
        (substitute (renderSegs segs) (buildValues source
          ((PyPath.relativeTo source base).getD source) now))) :=
      parse_no_brace _ hnb
    apply findPlaceholders_eq_nil
    apply render_no_brace
    rw [applyPattern_eq]
    by_cases habs : (PyPath.parse
        (substitute (renderSegs segs) (buildValues source
          ((PyPath.relativeTo source base).getD source) now))).absolute
    · rw [if_pos habs]
      exact hbfparse
    · rw [if_neg habs]
      by_cases hpath : containsSub (renderSegs segs) ("{path}".toList) = true
      · rw [if_pos hpath]
        exact join_no_brace _ _ hbase hbfparse
      · rw [if_neg hpath]
        exact join_no_brace _ _ (parent_no_brace source hsrc) hbfparse

-- C4 counterexample: the template `"{{name}}"` contains only the
-- recognized placeholder `name` (the `\{(\w+)\}` scan finds exactly
-- `name`), so construction succeeds — yet applying it to
-- `/docs/report.pdf` produces `/docs/{report}`, whose rendering still
-- contains the placeholder-shaped token `{report}`.  This refutes the
-- claim that a template containing only recognized placeholders always
-- yields a path with zero remaining `{...}` tokens.
unseal pyReplace findPlaceholders in
theorem C4_counterexample :
    (∀ v ∈ findPlaceholders ("{{name}}".toList), v ∈ variableKeys) ∧
    validatePattern ("{{name}}".toList) = .ok () ∧
    findPlaceholders
        ((applyPattern ("{{name}}".toList)
            (PyPath.parse "/docs/report.pdf".toList) rootFixture
            nowFixture).render)
      = ["report".toList] := by
  refine ⟨by decide, rfl, by decide⟩

/-- C4 witness: the template `{filename}.md` (segments: the placeholder
`filename` and the literal `.md`) applied to `/docs/report.pdf` leaves no
placeholder token. -/
theorem C4_pattern_validation_amended_witness :
    findPlaceholders
        ((applyPattern
            (renderSegs [Seg.ph ("filename".toList), Seg.lit (".md".toList)])
            (PyPath.parse "/docs/report.pdf".toList) rootFixture
            nowFixture).render) = [] :=
  C4_pattern_validation_amended.2
    [Seg.ph ("filename".toList), Seg.lit (".md".toList)]
    (PyPath.parse "/docs/report.pdf".toList) rootFixture nowFixture
    (by
      intro sg hsg
      rcases List.mem_cons.mp hsg with rfl | hsg'
      · exact ⟨by decide, by decide⟩
      · rcases List.mem_cons.mp hsg' with rfl | h
        · exact (by decide : ('{' : Char) ∉ ".md".toList)
        · simp at h)
    (by
      intro n hn
      rcases List.mem_cons.mp hn with heq | hn'
      · injection heq with h1
        subst h1
        decide
      · rcases List.mem_cons.mp hn' with heq | h
        · exact absurd heq (by simp)
        · simp at h)
    (parse_no_brace ("/docs/report.pdf".toList) (by decide))
    (parse_no_brace ("/".toList) (by decide))
    (by decide) (by decide) (by decide)

end Documark
